import Mathlib

/-!
# Submission relay of the bbs node

A shallow embedding of `src/accord/relay.go` (the relay facade, the per-connection
dispatch loop and the inbound-submission handler), of `cmd/bbsnode/args/config.go`
(`Config.PostProcess`) and of `src/rpc/client.go` (`Send`).

Goroutines are sequentialised: a blocking `select` is a parameter naming the branch
that fired, a connection's `Send` is a function stored in the connection record, and
every function returns the effects it performed as an explicit trace.
-/

namespace Accord

/-! ## Basic data -/

/-- The type `cipher.SHA256`: a content hash, used only as a lookup key. -/
abbrev SHA256 := Nat

/-- The type `cipher.PubKey`: a peer identity, used only as an address tag. -/
abbrev PubKey := Nat

/-- A byte string; every element stands for one byte. -/
abbrev Bytes := List Nat

/-- Modelled from the spec: the error kinds of package `boo` (not among the sources),
the taxonomy of section 7 together with `InvalidInput`, which `SubmitToRemote` names.
`Unknown` is the kind of an error that was not made by `boo`. -/
inductive Kind where
  | Unknown
  | InvalidInput
  | InvalidRead
  | NotAllowed
  | NotFound
  | AlreadyPending
  | MalformedMessage
  deriving DecidableEq, Repr

/-- A non-nil Go `error`: its kind and its stack of messages, outermost first.
The Go value `error` is `Option GoError`, with `none` for `nil`. -/
structure GoError where
  kind : Kind
  stack : List String
  deriving DecidableEq, Repr

namespace boo

/-- Modelled from the spec: `boo.Type` (package `boo` is not among the sources), the kind
of an error; `nil` has kind `Unknown`. -/
def typeOf (e : Option GoError) : Kind :=
  match e with
  | none => Kind.Unknown
  | some err => err.kind

/-- The message stack of an error; `nil` has none. -/
def stackOf (e : Option GoError) : List String :=
  match e with
  | none => []
  | some err => err.stack

/-- Modelled from the spec: `boo.New` (package `boo` is not among the sources), a fresh
error of the given kind. -/
def New (t : Kind) (msg : String) : Option GoError :=
  some ⟨t, [msg]⟩

/-- Modelled from the spec: `boo.WrapType` (package `boo` is not among the sources), an
error of the given kind whose cause is `e`; section 4.5 names the kind that each
`WrapType` call of `processSubmission` produces. -/
def WrapType (e : Option GoError) (t : Kind) (msg : String) : Option GoError :=
  some ⟨t, msg :: stackOf e⟩

/-- Modelled from the spec: `boo.Wrap` (package `boo` is not among the sources), which
accumulates a message on top of `e` and keeps its kind (section 4.6: the accumulated
send errors). -/
def Wrap (e : Option GoError) (msg : String) : Option GoError :=
  some ⟨typeOf e, msg :: stackOf e⟩

end boo

/-- The method `Error()` of a Go error: its text. -/
def GoError.Error (e : GoError) : String :=
  String.intercalate ": " e.stack

/-! ## Messages -/

/-- Modelled from the spec: the message type discriminant `Type` (declared outside the
sources). The core defines `SubmissionType` and `SubmissionResponseType`; the
surrounding system defines further types. -/
inductive MsgType where
  | SubmissionType
  | SubmissionResponseType
  | other (tag : Nat)
  deriving DecidableEq, Repr

/-- Modelled from the spec: the transport payload that a Submission carries (declared
outside the sources): its header hash and the board it is for. -/
structure Transport where
  hash : SHA256
  ofBoard : PubKey
  body : Bytes
  deriving DecidableEq, Repr

/-- Modelled from the spec: the outbound request body `Submission` (declared outside the
sources), section 3. -/
structure Submission where
  hash : SHA256
  boardId : PubKey
  payload : Bytes
  deriving DecidableEq, Repr

/-- The method `Submission.GetHash`. -/
def Submission.GetHash (s : Submission) : SHA256 := s.hash

/-- Modelled from the spec: the reply body `SubmissionResponse` (declared outside the
sources), section 3: content hash, sequence number, optional error. -/
structure SubmissionResponse where
  hash : SHA256
  seq : Nat
  err : Option GoError
  deriving DecidableEq, Repr

/-- Modelled from the spec: `NewSubmissionResponse` (declared outside the sources) wraps
exactly the triple that `processSubmission` returns (section 4.5). -/
def NewSubmissionResponse (hash : SHA256) (goal : Nat) (e : Option GoError) :
    SubmissionResponse :=
  ⟨hash, goal, e⟩

/-- The method `SubmissionResponse.Error`. -/
def SubmissionResponse.Error (res : SubmissionResponse) : Option GoError := res.err

/-- A decoded envelope `Wrapper` (declared outside the sources): its type, the identity
it came from and its undecoded body. -/
structure Wrapper where
  type : MsgType
  fromPK : PubKey
  body : Bytes
  deriving DecidableEq, Repr

/-- The method `Wrapper.GetType`. -/
def Wrapper.GetType (w : Wrapper) : MsgType := w.type

/-- The method `Wrapper.GetFromPK`. -/
def Wrapper.GetFromPK (w : Wrapper) : PubKey := w.fromPK

/-- The envelope codec, whose functions are declared outside the sources and are taken
as parameters: `NewWrapper`, the body decoders of `Wrapper` and `Submission`, the
serialisers, and the byte value `byte(t)` of a message type. -/
structure Codec where
  NewWrapper : Bytes → Except GoError Wrapper
  ToSubmission : Wrapper → Except GoError Submission
  ToTransport : Submission → Except GoError Transport
  ToSubmissionResponse : Wrapper → Except GoError SubmissionResponse
  SerializeResponse : SubmissionResponse → Bytes
  SerializeSubmission : Submission → Bytes
  byte : MsgType → Nat

/-! ## The pending-request registry -/

/-- Modelled from the spec: the pending-request registry `Incomplete` (declared outside
the sources), section 4.2: the keys that have a pending entry. The one-shot channel of
an entry is not stored; what is delivered on it is reported by `Satisfy`. -/
structure Incomplete where
  pending : List SHA256
  deriving DecidableEq, Repr

/-- Modelled from the spec: `NewIncomplete`, the empty registry. -/
def NewIncomplete : Incomplete := ⟨[]⟩

/-- Whether the registry holds an entry for the key. -/
def Incomplete.Has (inc : Incomplete) (key : SHA256) : Bool :=
  decide (key ∈ inc.pending)

/-- Modelled from the spec: `Incomplete.Add` fails with `AlreadyPending` if the key
already has an entry, and creates the entry otherwise. -/
def Incomplete.Add (inc : Incomplete) (key : SHA256) : Incomplete × Option GoError :=
  if key ∈ inc.pending then
    (inc, boo.New Kind.AlreadyPending "submission is already pending")
  else
    (⟨key :: inc.pending⟩, none)

/-- Modelled from the spec: `Incomplete.Remove` deletes the entry if present and is
idempotent. -/
def Incomplete.Remove (inc : Incomplete) (key : SHA256) : Incomplete :=
  ⟨inc.pending.filter (fun k => decide (k ≠ key))⟩

/-- Modelled from the spec: `Incomplete.Satisfy` looks the response up by its content
hash; if an entry is found the value is delivered (the boolean) and the entry removed,
otherwise the response is discarded. -/
def Incomplete.Satisfy (inc : Incomplete) (res : SubmissionResponse) : Incomplete × Bool :=
  if res.hash ∈ inc.pending then (inc.Remove res.hash, true) else (inc, false)

/-! ## Connections, boards and the relay -/

/-- A connection of the messenger factory (an external library): its remote address,
the key of the peer, and how its `Send` answers (`none` when the send is accepted). -/
structure Connection where
  addr : String
  key : PubKey
  Send : PubKey → Bytes → Option GoError

/-- A board instance of the state compiler (declared outside the sources), section 6. -/
structure BoardInstance where
  IsMaster : Bool
  Submit : Transport → Nat × Option GoError

/-- The state compiler (declared outside the sources), section 6: `GetBoard`. -/
structure Compiler where
  GetBoard : PubKey → Except GoError BoardInstance

/-- The struct `Relay`: the connections registered in the factory, in the order in which
`ForEachConn` visits them, the compiler (`nil` until `Open`), the pending registry and
the initialised flag, a `typ.Bool` that `Set` makes true and `Value` reads. -/
structure Relay where
  conns : List Connection
  compiler : Option Compiler
  incomplete : Incomplete
  initialised : Bool

/-- The constructor `NewRelay`. -/
def NewRelay : Relay :=
  { conns := [], compiler := none, incomplete := NewIncomplete, initialised := false }

/-- The method `Relay.Open`. -/
def Relay.Open (r : Relay) (compiler : Compiler) : Relay :=
  { r with compiler := some compiler }

/-- The method `Relay.Connect`; `dial` is what `factory.ConnectWithConfig` answers for
the address. A connection that dials is registered in the factory. The deferred
`r.initialised.Set()` runs on both return paths. -/
def Relay.Connect (r : Relay) (_address : String) (dial : Except GoError Connection) :
    Relay × Except GoError PubKey :=
  match dial with
  | Except.error e => ({ r with initialised := true }, Except.error e)
  | Except.ok conn =>
    ({ r with conns := r.conns ++ [conn], initialised := true }, Except.ok conn.key)

/-- The method `Relay.Disconnect`: every connection to the address is closed, which
removes it from the factory. -/
def Relay.Disconnect (r : Relay) (address : String) : Relay × Bool :=
  if r.initialised = false then
    (r, false)
  else
    ({ r with conns := r.conns.filter (fun conn => decide (conn.addr ≠ address)) },
      r.conns.any (fun conn => decide (conn.addr = address)))

/-! ## The inbound-submission handler -/

/-- What `processSubmission` returns, `(hash, goal, e)`, together with the transports it
handed to the board's `Submit`, in order. -/
structure Processed where
  hash : SHA256
  goal : Nat
  e : Option GoError
  applied : List Transport
  deriving DecidableEq, Repr

/-- The method `Relay.processSubmission`. The named results start as the zero hash, 0
and `nil`. The result is `none` when `r.compiler` is `nil` at the `GetBoard` call, which
the method does not guard. -/
def Relay.processSubmission (cdc : Codec) (r : Relay) (wrapper : Wrapper) :
    Option Processed :=
  match cdc.ToSubmission wrapper with
  | Except.error e =>
    some ⟨0, 0, boo.WrapType (some e) Kind.InvalidRead "failed to extract submission", []⟩
  | Except.ok submission =>
    match cdc.ToTransport submission with
    | Except.error e =>
      some ⟨0, 0, boo.WrapType (some e) Kind.InvalidRead "failed to extract transport", []⟩
    | Except.ok transport =>
      let hash := transport.hash
      match r.compiler with
      | none => none
      | some compiler =>
        match compiler.GetBoard transport.ofBoard with
        | Except.error e =>
          some ⟨hash, 0,
            boo.WrapType (some e) Kind.InvalidRead "failed to obtain board instance", []⟩
        | Except.ok bi =>
          if bi.IsMaster = false then
            some ⟨hash, 0,
              boo.WrapType none Kind.NotAllowed "node does not own this board", []⟩
          else
            match bi.Submit transport with
            | (goal, some e) =>
              some ⟨hash, goal,
                boo.WrapType (some e) (boo.typeOf (some e)) "submission failed", [transport]⟩
            | (goal, none) => some ⟨hash, goal, none, [transport]⟩

/-- The function `send`: the discriminant byte of the type, then the body, handed to the
connection's `Send`. -/
def send (cdc : Codec) (conn : Connection) (toPK : PubKey) (t : MsgType) (body : Bytes) :
    Option GoError :=
  conn.Send toPK (cdc.byte t :: body)

/-! ## The dispatch loop -/

/-- What one iteration of the dispatch loop does to the outside, in order. -/
inductive Effect where
  | sent (address : String) (toPK : PubKey) (bytes : Bytes)
  | applied (transport : Transport)
  | satisfied (res : SubmissionResponse)
  | disconnected (address : String)
  | logged (msg : String)
  deriving DecidableEq, Repr

/-- The two states of the dispatch loop (section 4.4). -/
inductive LoopState where
  | Running
  | Terminated
  deriving DecidableEq, Repr

/-- The branch of the loop's `select` that fires: the shutdown signal `r.quit`, the
closure of the inbound stream, or an inbound message. On closure the loop sends the
address on the unbuffered `disconnectChan`; `received` says whether a reader of
`Disconnections()` ever takes it. -/
inductive Event where
  | quit
  | closed (received : Bool)
  | data (bytes : Bytes)
  deriving DecidableEq, Repr

/-- The outcome of one iteration of the dispatch loop. -/
structure Step where
  state : LoopState
  relay : Relay
  effects : List Effect

/-- One iteration of the `for`/`select` loop that `Relay.connectionService` starts for a
connection. The result is `none` when the iteration does not complete: when
`processSubmission` has none, or when the stream is closed and the address sent on
`disconnectChan` is never received, on which send the loop stays blocked. -/
def Relay.connectionService (cdc : Codec) (r : Relay) (conn : Connection) (ev : Event) :
    Option Step :=
  match ev with
  | Event.quit => some ⟨LoopState.Terminated, r, []⟩
  | Event.closed received =>
    if received = false then
      none
    else
      some ⟨LoopState.Terminated, r,
        [Effect.disconnected conn.addr, Effect.logged "disconnected"]⟩
  | Event.data data =>
    match cdc.NewWrapper data with
    | Except.error _ =>
      some ⟨LoopState.Running, r, [Effect.logged "received invalid message"]⟩
    | Except.ok wrapper =>
      match wrapper.GetType with
      | MsgType.SubmissionType =>
        match r.processSubmission cdc wrapper with
        | none => none
        | some p =>
          let body := cdc.SerializeResponse (NewSubmissionResponse p.hash p.goal p.e)
          let bytes := cdc.byte MsgType.SubmissionResponseType :: body
          let failed :=
            match send cdc conn wrapper.GetFromPK MsgType.SubmissionResponseType body with
            | some _ => [Effect.logged "failed to send message"]
            | none => []
          some ⟨LoopState.Running, r,
            [Effect.logged "received message"] ++ p.applied.map Effect.applied ++
              [Effect.sent conn.addr wrapper.GetFromPK bytes] ++ failed⟩
      | MsgType.SubmissionResponseType =>
        match cdc.ToSubmissionResponse wrapper with
        | Except.error _ =>
          some ⟨LoopState.Running, r,
            [Effect.logged "received message",
              Effect.logged "failed to obtain submission response"]⟩
        | Except.ok res =>
          some ⟨LoopState.Running, { r with incomplete := (r.incomplete.Satisfy res).1 },
            [Effect.logged "received message", Effect.satisfied res]⟩
      | MsgType.other _ => some ⟨LoopState.Running, r, [Effect.logged "received message"]⟩

/-- The dispatch loop over the events of its `select`, in the order in which they fire:
it iterates until an iteration ends in `Terminated` and ignores what would follow. -/
def Relay.connectionServiceLoop (cdc : Codec) (conn : Connection) :
    Relay → List Event → Option Step
  | r, [] => some ⟨LoopState.Running, r, []⟩
  | r, ev :: rest =>
    match r.connectionService cdc conn ev with
    | none => none
    | some st =>
      match st.state with
      | LoopState.Terminated => some st
      | LoopState.Running =>
        match Relay.connectionServiceLoop cdc conn st.relay rest with
        | none => none
        | some st2 => some ⟨st2.state, st2.relay, st.effects ++ st2.effects⟩

/-- The messages handed to a connection's `Send` among the effects, in order: the remote
address of the connection, the identity addressed and the bytes. -/
def sentOf : List Effect → List (String × PubKey × Bytes)
  | [] => []
  | Effect.sent address toPK bytes :: rest => (address, toPK, bytes) :: sentOf rest
  | _ :: rest => sentOf rest

/-- The responses handed to `Satisfy` among the effects, in order. -/
def satisfiedOf : List Effect → List SubmissionResponse
  | [] => []
  | Effect.satisfied res :: rest => res :: satisfiedOf rest
  | _ :: rest => satisfiedOf rest

/-! ## The relay facade: `SubmitToRemote` -/

/-- The dynamic type of the `data` argument of `SubmitToRemote`: a `*Submission`, or a
value of another type, given by its name. -/
inductive Data where
  | submission (s : Submission)
  | other (typeName : String)
  deriving DecidableEq, Repr

/-- The branch of the waiting `select` that fires: the context is done, with `ctx.Err()`,
or a response arrives on the result channel. -/
inductive WaitEvent where
  | ctxDone (err : GoError)
  | response (res : SubmissionResponse)
  deriving DecidableEq, Repr

/-- What happens while `SubmitToRemote` is blocked: the branch that ends the wait, and
what the other goroutines did to the pending registry in the meantime. -/
structure Wait where
  event : WaitEvent
  others : Incomplete → Incomplete

/-- What `SubmitToRemote` returns, `(seq, err)`, with the relay afterwards, the messages
it handed to a connection's `Send` (remote address, identity, bytes) and whether it
blocked on the waiting `select`. -/
structure Submitted where
  seq : Nat
  err : Option GoError
  relay : Relay
  sent : List (String × PubKey × Bytes)
  waited : Bool

/-- The visitor that `SubmitToRemote` passes to `ForEachConn`, on the variables `done`
and `eStack`. -/
def fanOutVisit (cdc : Codec) (toPK : PubKey) (s : Submission)
    (acc : Bool × Option GoError) (conn : Connection) : Bool × Option GoError :=
  match send cdc conn toPK MsgType.SubmissionType (cdc.SerializeSubmission s) with
  | some e => (acc.1, boo.Wrap acc.2 e.Error)
  | none => (true, acc.2)

/-- The method `Relay.SubmitToRemote`. The deferred `Remove` runs on every return that
follows a successful `Add`. -/
def Relay.SubmitToRemote (cdc : Codec) (r : Relay) (toPK : PubKey) (data : Data)
    (wait : Wait) : Submitted :=
  if r.initialised = false then
    ⟨0, boo.New Kind.NotAllowed "relay is not initialised - no available connections",
      r, [], false⟩
  else
    match data with
    | Data.other typeName =>
      ⟨0, boo.New Kind.InvalidInput ("invalid type '" ++ typeName ++ "'"), r, [], false⟩
    | Data.submission s =>
      let hash := s.GetHash
      match r.incomplete.Add hash with
      | (inc, some e) => ⟨0, some e, { r with incomplete := inc }, [], false⟩
      | (inc, none) =>
        let out := r.conns.foldl (fanOutVisit cdc toPK s) (false, none)
        let msgs := r.conns.map
          (fun conn => (conn.addr, toPK, cdc.byte MsgType.SubmissionType ::
            cdc.SerializeSubmission s))
        if out.1 = false then
          ⟨0, out.2, { r with incomplete := inc.Remove hash }, msgs, false⟩
        else
          let after := (wait.others inc).Remove hash
          match wait.event with
          | WaitEvent.ctxDone err =>
            ⟨0, some err, { r with incomplete := after }, msgs, true⟩
          | WaitEvent.response res =>
            ⟨res.seq, res.Error, { r with incomplete := after }, msgs, true⟩

end Accord

namespace Args

/-! ## Command-line configuration -/

/-- The constant `configSubDir`. -/
def configSubDir : String := "/.skycoin/bbs"

/-- The struct `Config`. -/
structure Config where
  testMode : Bool
  testModeThreads : Int
  testModeUsers : Int
  testModeMinInterval : Int
  testModeMaxInterval : Int
  testModeTimeOut : Int
  master : Bool
  saveConfig : Bool
  configDir : String
  rpcServerPort : Int
  rpcServerRemAdr : String
  cxoPort : Int
  cxoRPCPort : Int
  cxoMemoryMode : Bool
  cxoDir : String
  webGUIEnable : Bool
  webGUIPort : Int
  webGUIDir : String
  webGUIOpenBrowser : Bool
  deriving DecidableEq, Repr

/-- The constructor `NewConfig`: the default values. -/
def NewConfig : Config :=
  { testMode := false
    testModeThreads := 3
    testModeUsers := 1
    testModeMinInterval := 1
    testModeMaxInterval := 10
    testModeTimeOut := -1
    master := false
    saveConfig := true
    configDir := ""
    rpcServerPort := 6421
    rpcServerRemAdr := "127.0.0.1:6421"
    cxoPort := 8998
    cxoRPCPort := 8997
    cxoMemoryMode := false
    cxoDir := "bbs"
    webGUIEnable := true
    webGUIPort := 7410
    webGUIDir := "./extern/gui/static"
    webGUIOpenBrowser := true }

/-- The file-system calls of `PostProcess`, from external libraries: `util.InitDataDir`,
`util.UserHome`, and `os.MkdirAll`, which answers `none` when it succeeds. -/
structure Sys where
  InitDataDir : String → String
  UserHome : String
  MkdirAll : String → Option String

/-- The method `Config.PostProcess`: the error of the `(nil, error)` returns, or the
processed configuration. -/
def Config.PostProcess (sys : Sys) (c0 : Config) : Except String Config :=
  let checked : Except String Config :=
    if c0.testMode then
      if c0.testModeThreads < 0 then
        Except.error "invalid number of test mode threads specified"
      else if c0.testModeUsers < 1 then
        Except.error "invalid number of test mode users specified"
      else if c0.testModeMinInterval < 0 then
        Except.error "invalid test mode minimum interval specified"
      else if c0.testModeMaxInterval < 0 then
        Except.error "invalid test mode maximum interval specified"
      else if c0.testModeMinInterval > c0.testModeMaxInterval then
        Except.error "test mode minimum interval > maximum interval"
      else
        Except.ok { c0 with
          master := true
          webGUIEnable := true
          cxoMemoryMode := false
          cxoDir := ""
          saveConfig := false }
    else
      Except.ok c0
  match checked with
  | Except.error e => Except.error e
  | Except.ok c =>
    if c.saveConfig && c.configDir == "" then
      Except.ok { c with configDir := sys.InitDataDir configSubDir }
    else if !(sys.UserHome.isPrefixOf c.configDir) then
      Except.ok { c with configDir := sys.InitDataDir c.configDir }
    else
      match sys.MkdirAll c.configDir with
      | some e => Except.error e
      | none => Except.ok c

/-- The accessor `Config.SaveConfig`. -/
def Config.SaveConfig (c : Config) : Bool := c.saveConfig

/-- The accessor `Config.CXOUseMemory`. -/
def Config.CXOUseMemory (c : Config) : Bool := c.cxoMemoryMode

/-- A file system whose home is `/home/bbs` and in which every directory can be made. -/
def demoSys : Sys where
  InitDataDir := fun dir => "/home/bbs" ++ dir
  UserHome := "/home/bbs"
  MkdirAll := fun _ => none

/-- The default configuration with `-test-mode` and `-cxo-memory-mode` given. -/
def demoTestConfig : Config :=
  { NewConfig with testMode := true, cxoMemoryMode := true }

end Args

namespace Rpc

open Accord

/-! ## The RPC client -/

/-- The branch of the `select` of `Send` that fires: the call is done, with the reply the
remote wrote into `goal` and `call.Error`, or the context is done, with `ctx.Err()`. -/
inductive SelectEvent where
  | callDone (reply : Nat) (err : Option GoError)
  | ctxDone (err : GoError)
  deriving DecidableEq, Repr

/-- What `Send` meets at an address: whether `rpc.Dial` succeeds, and which branch of the
`select` fires for the call made on that client. -/
structure Net where
  dial : String → Bool
  select : String → SelectEvent

/-- What `Send` returns, `(goal, e)`, with the addresses on which it made the call. -/
structure Sent where
  goal : Nat
  e : Option GoError
  called : List String
  deriving DecidableEq, Repr

/-- The function `Send` on an address list (the `addresses` argument asserted to
`[]string`). In the `callDone` branch the named result `goal` holds the reply when
`return 0, call.Error` overwrites it with 0. -/
def Send (net : Net) : List String → Sent
  | [] => ⟨0, boo.New Kind.NotFound "not found bla bla bla", []⟩
  | address :: rest =>
    if net.dial address = false then
      Send net rest
    else
      match net.select address with
      | SelectEvent.callDone _reply err => ⟨0, err, [address]⟩
      | SelectEvent.ctxDone err => ⟨0, some err, [address]⟩

/-- A network on which only `b:2` dials, and the call made there completes without error
after the remote wrote 42 into `goal`. -/
def demoNet : Net where
  dial := fun address => address == "b:2"
  select := fun _ => SelectEvent.callDone 42 none

end Rpc

namespace Accord

/-! ## Concrete instances -/

/-- A codec over small byte strings: discriminant, origin, then the body. -/
def demoCodec : Codec where
  NewWrapper := fun bytes =>
    match bytes with
    | 0 :: pk :: body => Except.ok ⟨MsgType.SubmissionType, pk, body⟩
    | 1 :: pk :: body => Except.ok ⟨MsgType.SubmissionResponseType, pk, body⟩
    | _ => Except.error ⟨Kind.MalformedMessage, ["malformed message"]⟩
  ToSubmission := fun w =>
    match w.body with
    | hash :: board :: payload => Except.ok ⟨hash, board, payload⟩
    | _ => Except.error ⟨Kind.Unknown, ["short submission"]⟩
  ToTransport := fun s => Except.ok ⟨s.hash, s.boardId, s.payload⟩
  ToSubmissionResponse := fun w =>
    match w.body with
    | hash :: seq :: _ => Except.ok ⟨hash, seq, none⟩
    | _ => Except.error ⟨Kind.Unknown, ["short response"]⟩
  SerializeResponse := fun res => [res.hash, res.seq, if res.err.isSome then 1 else 0]
  SerializeSubmission := fun s => s.hash :: s.boardId :: s.payload
  byte := fun t =>
    match t with
    | MsgType.SubmissionType => 0
    | MsgType.SubmissionResponseType => 1
    | MsgType.other tag => tag

/-- A board that this node does not master. -/
def demoForeignBoard : BoardInstance where
  IsMaster := false
  Submit := fun _ => (42, none)

/-- A compiler that knows board 7, which this node does not master, and no other. -/
def demoCompiler : Compiler where
  GetBoard := fun id =>
    if id = 7 then Except.ok demoForeignBoard
    else Except.error ⟨Kind.NotFound, ["board not found"]⟩

/-- A connection that accepts every send. -/
def demoConn : Connection where
  addr := "10.0.0.2:8080"
  key := 5
  Send := fun _ _ => none

/-- A relay that is open on `demoCompiler` and has dialled `demoConn`. -/
def demoRelay : Relay :=
  ((NewRelay.Open demoCompiler).Connect demoConn.addr (Except.ok demoConn)).1

/-- A wait that the context ends, while nothing else touches the registry. -/
def demoWait : Wait where
  event := WaitEvent.ctxDone ⟨Kind.Unknown, ["context deadline exceeded"]⟩
  others := fun inc => inc

/-- The relay after the given `Connect` calls, every one of which failed: the address
of each call and the error of its dial. -/
def connectFailing (r : Relay) (calls : List (String × GoError)) : Relay :=
  calls.foldl (fun acc call => (acc.Connect call.1 (Except.error call.2)).1) r

/-- A relay that has dialled `demoConn` and was never opened: its compiler is `nil`. -/
def demoUnopenedRelay : Relay :=
  (NewRelay.Connect demoConn.addr (Except.ok demoConn)).1

/-- The relay `demoRelay` after `Disconnect` of its one connection: initialised, with no
connection registered. -/
def demoIdleRelay : Relay :=
  (demoRelay.Disconnect demoConn.addr).1

/-- The relay `demoRelay` while a submission of hash 11 is pending. -/
def demoBusyRelay : Relay :=
  { demoRelay with incomplete := (demoRelay.incomplete.Add 11).1 }

/-- A submission of hash 11 for board 7. -/
def demoSubmission : Submission := ⟨11, 7, [3, 4]⟩

/-- An inbound Submission envelope from identity 9 for board 7, which `demoCompiler`
knows and this node does not master. -/
def demoForeignData : Bytes := [0, 9, 11, 7, 3]

/-- An inbound Submission envelope from identity 9 for board 8, which `demoCompiler` does
not know. -/
def demoStrayData : Bytes := [0, 9, 11, 8, 3]

/-- The error of a dial that fails. -/
def demoDialError : GoError := ⟨Kind.Unknown, ["dial tcp: connection refused"]⟩

end Accord

namespace Accord

/-! ## The pending registry and the fan-out -/

/-- After `Remove` the registry holds no entry for the key. -/
theorem Incomplete.Has_Remove (inc : Incomplete) (key : SHA256) :
    (inc.Remove key).Has key = false := by
  simp [Incomplete.Has, Incomplete.Remove]

/-- A successful `Add` means the key had no entry, and the other way round. -/
theorem Incomplete.Add_snd_eq_none (inc : Incomplete) (key : SHA256) :
    (inc.Add key).2 = none ↔ inc.Has key = false := by
  unfold Incomplete.Add Incomplete.Has
  by_cases h : key ∈ inc.pending <;> simp [h, boo.New]

/-- A failing `Add` leaves the registry as it was and reports `AlreadyPending`. -/
theorem Incomplete.Add_of_Has (inc : Incomplete) (key : SHA256)
    (h : inc.Has key = true) :
    inc.Add key = (inc, boo.New Kind.AlreadyPending "submission is already pending") := by
  unfold Incomplete.Has at h
  unfold Incomplete.Add
  simp at h
  simp [h]

/-- A successful `Add` puts the key in front of the entries. -/
theorem Incomplete.Add_of_not_Has (inc : Incomplete) (key : SHA256)
    (h : inc.Has key = false) :
    inc.Add key = (⟨key :: inc.pending⟩, none) := by
  unfold Incomplete.Has at h
  unfold Incomplete.Add
  simp at h
  simp [h]

/-- When every connection refuses the send, the fan-out leaves `done` as it was. -/
theorem fanOut_refused_done (cdc : Codec) (toPK : PubKey) (s : Submission)
    (conns : List Connection) (acc : Bool × Option GoError)
    (h : ∀ conn ∈ conns, ∀ pk bytes, conn.Send pk bytes ≠ none) :
    (conns.foldl (fanOutVisit cdc toPK s) acc).1 = acc.1 := by
  induction conns generalizing acc with
  | nil => rfl
  | cons conn rest ih =>
    have hc := h conn (List.mem_cons_self conn rest) toPK
      (cdc.byte MsgType.SubmissionType :: cdc.SerializeSubmission s)
    have hrest : ∀ c ∈ rest, ∀ pk bytes, c.Send pk bytes ≠ none :=
      fun c hmem => h c (List.mem_cons_of_mem conn hmem)
    rw [List.foldl_cons, ih _ hrest]
    unfold fanOutVisit send
    cases hsend : conn.Send toPK (cdc.byte MsgType.SubmissionType :: cdc.SerializeSubmission s) with
    | none => exact absurd hsend hc
    | some e => rfl

/-- Once `eStack` is non-nil the fan-out keeps it non-nil. -/
theorem fanOut_stack_isSome (cdc : Codec) (toPK : PubKey) (s : Submission)
    (conns : List Connection) (acc : Bool × Option GoError) (h : acc.2.isSome = true) :
    (conns.foldl (fanOutVisit cdc toPK s) acc).2.isSome = true := by
  induction conns generalizing acc with
  | nil => exact h
  | cons conn rest ih =>
    rw [List.foldl_cons]
    apply ih
    unfold fanOutVisit
    cases send cdc conn toPK MsgType.SubmissionType (cdc.SerializeSubmission s) with
    | none => exact h
    | some e => rfl

/-- When there is a connection and every connection refuses the send, `SubmitToRemote`
returns 0 and a non-nil error without waiting. -/
theorem SubmitToRemote_all_refused (cdc : Codec) (r : Relay) (toPK : PubKey)
    (s : Submission) (wait : Wait) (hinit : r.initialised = true)
    (hfree : r.incomplete.Has s.GetHash = false) (hne : r.conns ≠ [])
    (h : ∀ conn ∈ r.conns, ∀ pk bytes, conn.Send pk bytes ≠ none) :
    (r.SubmitToRemote cdc toPK (Data.submission s) wait).seq = 0 ∧
      (r.SubmitToRemote cdc toPK (Data.submission s) wait).err.isSome = true ∧
      (r.SubmitToRemote cdc toPK (Data.submission s) wait).waited = false := by
  have hdone := fanOut_refused_done cdc toPK s r.conns (false, none) h
  have hstack : (r.conns.foldl (fanOutVisit cdc toPK s) (false, none)).2.isSome = true := by
    cases hc : r.conns with
    | nil => exact absurd hc hne
    | cons conn rest =>
      rw [List.foldl_cons]
      apply fanOut_stack_isSome
      have hc1 := h conn (by rw [hc]; exact List.mem_cons_self conn rest) toPK
        (cdc.byte MsgType.SubmissionType :: cdc.SerializeSubmission s)
      unfold fanOutVisit send
      cases hsend : conn.Send toPK
          (cdc.byte MsgType.SubmissionType :: cdc.SerializeSubmission s) with
      | none => exact absurd hsend hc1
      | some e => rfl
  unfold Relay.SubmitToRemote
  simp only [hinit, Incomplete.Add_of_not_Has _ _ hfree]
  simp at hdone
  simp [hdone, hstack]

/-! ## `SubmitToRemote`, `Connect` and `Disconnect` -/

/-- Failed `Connect` calls change nothing but the initialised flag, which is set as soon
as there is one call. -/
theorem connectFailing_eq (r : Relay) (calls : List (String × GoError)) :
    connectFailing r calls =
      { r with initialised := r.initialised || !calls.isEmpty } := by
  unfold connectFailing
  induction calls generalizing r with
  | nil => simp
  | cons call rest ih =>
    rw [List.foldl_cons, ih]
    simp [Relay.Connect]

/-- C1, evaluated on the code: on an initialised relay with no registered connection
(`demoRelay` after `Disconnect` of its only connection) and a submission whose hash is
not pending, `SubmitToRemote` returns without waiting, and what it returns is sequence
number 0 with a nil error. -/
theorem C1_SubmitToRemote_no_connection_nil_error :
    demoIdleRelay.initialised = true ∧ demoIdleRelay.conns.length = 0 ∧
      demoIdleRelay.incomplete.Has demoSubmission.GetHash = false ∧
      (demoIdleRelay.SubmitToRemote demoCodec 5 (Data.submission demoSubmission)
        demoWait).waited = false ∧
      (demoIdleRelay.SubmitToRemote demoCodec 5 (Data.submission demoSubmission)
        demoWait).seq = 0 ∧
      (demoIdleRelay.SubmitToRemote demoCodec 5 (Data.submission demoSubmission)
        demoWait).err = none := by
  refine ⟨rfl, rfl, rfl, rfl, rfl, rfl⟩

/-- C2, refuted as stated: after one `Connect` call that failed, the initialised flag of
a new relay is true, and a following `SubmitToRemote` does not fail with a `NotAllowed`
error. -/
theorem C2_flag_set_by_failed_Connect :
    (connectFailing NewRelay [("10.0.0.9:1", demoDialError)]).initialised = true ∧
      ¬ boo.typeOf ((connectFailing NewRelay [("10.0.0.9:1", demoDialError)]).SubmitToRemote
        demoCodec 5 (Data.submission demoSubmission) demoWait).err = Kind.NotAllowed := by
  refine ⟨rfl, ?_⟩
  decide

/-- C2, amended: the initialised flag is false until the first `Connect` call returns,
whether or not that call succeeded. On a new relay the flag is false, `SubmitToRemote`
fails immediately with a `NotAllowed` error and `Disconnect` returns false. After a
non-empty sequence of `Connect` calls none of which succeeded the flag is true, a
following `SubmitToRemote` does not fail with a `NotAllowed` error, and `Disconnect`
returns false. -/
theorem C2_flag_set_by_first_Connect (cdc : Codec) (toPK : PubKey) (data : Data)
    (wait : Wait) (address : String) (call : String × GoError)
    (calls : List (String × GoError)) :
    NewRelay.initialised = false ∧
      (NewRelay.SubmitToRemote cdc toPK data wait).seq = 0 ∧
      boo.typeOf (NewRelay.SubmitToRemote cdc toPK data wait).err = Kind.NotAllowed ∧
      (NewRelay.SubmitToRemote cdc toPK data wait).waited = false ∧
      (NewRelay.Disconnect address).2 = false ∧
      (connectFailing NewRelay (call :: calls)).initialised = true ∧
      boo.typeOf ((connectFailing NewRelay (call :: calls)).SubmitToRemote cdc toPK data
        wait).err ≠ Kind.NotAllowed ∧
      ((connectFailing NewRelay (call :: calls)).Disconnect address).2 = false := by
  rw [connectFailing_eq]
  refine ⟨rfl, rfl, rfl, rfl, rfl, rfl, ?_, rfl⟩
  cases data with
  | other typeName => simp [Relay.SubmitToRemote, NewRelay, boo.New, boo.typeOf]
  | submission s =>
    simp [Relay.SubmitToRemote, NewRelay, NewIncomplete, Incomplete.Add, boo.typeOf]

/-- C4: a `SubmitToRemote` call on a submission whose `Add` succeeded leaves no entry for
the hash of the submission in the pending registry, on every path by which it returns:
no connection accepted the send, the context ended, or a response was delivered, and
whatever the other goroutines did to the registry while the call was blocked. -/
theorem C4_SubmitToRemote_removes_entry (cdc : Codec) (r : Relay) (toPK : PubKey)
    (s : Submission) (wait : Wait) (hinit : r.initialised = true)
    (hadd : (r.incomplete.Add s.GetHash).2 = none) :
    (r.SubmitToRemote cdc toPK (Data.submission s) wait).relay.incomplete.Has s.GetHash
      = false := by
  have hfree := (Incomplete.Add_snd_eq_none _ _).1 hadd
  unfold Relay.SubmitToRemote
  simp only [hinit, Incomplete.Add_of_not_Has _ _ hfree]
  by_cases hdone : (r.conns.foldl (fanOutVisit cdc toPK s) (false, none)).1 = false
  · simp [hdone, Incomplete.Has_Remove]
  · cases hev : wait.event with
    | ctxDone err => simp [hdone, Incomplete.Has_Remove]
    | response res => simp [hdone, Incomplete.Has_Remove]

/-- C4 at a concrete call: `demoRelay`, whose connection accepts the send, and a wait
that the context ends. -/
theorem C4_SubmitToRemote_removes_entry_witness :
    demoRelay.initialised = true ∧
      (demoRelay.incomplete.Add demoSubmission.GetHash).2 = none ∧
      (demoRelay.SubmitToRemote demoCodec 5 (Data.submission demoSubmission)
        demoWait).waited = true ∧
      (demoRelay.SubmitToRemote demoCodec 5 (Data.submission demoSubmission)
        demoWait).relay.incomplete.Has demoSubmission.GetHash = false :=
  ⟨rfl, rfl, rfl,
    C4_SubmitToRemote_removes_entry demoCodec demoRelay 5 demoSubmission demoWait rfl rfl⟩

/-- C5: on an initialised relay, `SubmitToRemote` of a submission whose hash already has
a pending entry returns sequence number 0 with the `AlreadyPending` error that `Add`
reports, hands no message to any connection, does not wait, and leaves the registry,
with the entry of the first caller, as it was. -/
theorem C5_SubmitToRemote_already_pending (cdc : Codec) (r : Relay) (toPK : PubKey)
    (s : Submission) (wait : Wait) (hinit : r.initialised = true)
    (hpending : r.incomplete.Has s.GetHash = true) :
    (r.SubmitToRemote cdc toPK (Data.submission s) wait).seq = 0 ∧
      (r.SubmitToRemote cdc toPK (Data.submission s) wait).err
        = (r.incomplete.Add s.GetHash).2 ∧
      boo.typeOf (r.SubmitToRemote cdc toPK (Data.submission s) wait).err
        = Kind.AlreadyPending ∧
      (r.SubmitToRemote cdc toPK (Data.submission s) wait).sent = [] ∧
      (r.SubmitToRemote cdc toPK (Data.submission s) wait).waited = false ∧
      (r.SubmitToRemote cdc toPK (Data.submission s) wait).relay.incomplete
        = r.incomplete ∧
      (r.SubmitToRemote cdc toPK (Data.submission s) wait).relay.incomplete.Has s.GetHash
        = true := by
  unfold Relay.SubmitToRemote
  simp only [hinit, Incomplete.Add_of_Has _ _ hpending]
  simp [boo.New, boo.typeOf, hpending]

/-- C5 at a concrete call: `demoBusyRelay`, on which hash 11 is pending. -/
theorem C5_SubmitToRemote_already_pending_witness :
    demoBusyRelay.initialised = true ∧
      demoBusyRelay.incomplete.Has demoSubmission.GetHash = true ∧
      (demoBusyRelay.SubmitToRemote demoCodec 5 (Data.submission demoSubmission)
        demoWait).sent = [] ∧
      (demoBusyRelay.SubmitToRemote demoCodec 5 (Data.submission demoSubmission)
        demoWait).relay.incomplete.Has demoSubmission.GetHash = true :=
  ⟨rfl, rfl,
    (C5_SubmitToRemote_already_pending demoCodec demoBusyRelay 5 demoSubmission demoWait
      rfl rfl).2.2.2.1,
    (C5_SubmitToRemote_already_pending demoCodec demoBusyRelay 5 demoSubmission demoWait
      rfl rfl).2.2.2.2.2.2⟩

/-! ## The inbound-submission handler and the dispatch loop -/

/-- The messages of a concatenation of effects. -/
theorem sentOf_append (xs ys : List Effect) : sentOf (xs ++ ys) = sentOf xs ++ sentOf ys := by
  induction xs with
  | nil => rfl
  | cons x rest ih => cases x <;> simp [sentOf, ih]

/-- Applying a transport sends nothing. -/
theorem sentOf_applied (ts : List Transport) : sentOf (ts.map Effect.applied) = [] := by
  induction ts with
  | nil => rfl
  | cons t rest ih => simpa [sentOf] using ih

/-- C3: for an inbound Submission whose payload extracts and whose board resolves to a
board with `IsMaster() == false`, `processSubmission` returns the hash of the payload,
sequence number 0 and a non-nil error of kind `NotAllowed`, and does not invoke the
board's `Submit`. -/
theorem C3_processSubmission_non_master (cdc : Codec) (r : Relay) (compiler : Compiler)
    (wrapper : Wrapper) (submission : Submission) (transport : Transport)
    (bi : BoardInstance) (hc : r.compiler = some compiler)
    (hs : cdc.ToSubmission wrapper = Except.ok submission)
    (ht : cdc.ToTransport submission = Except.ok transport)
    (hb : compiler.GetBoard transport.ofBoard = Except.ok bi)
    (hm : bi.IsMaster = false) :
    ∃ p, r.processSubmission cdc wrapper = some p ∧ p.hash = transport.hash ∧
      p.goal = 0 ∧ p.e.isSome = true ∧ boo.typeOf p.e = Kind.NotAllowed ∧
      p.applied = [] := by
  unfold Relay.processSubmission
  simp only [hs, ht, hc, hb, hm]
  exact ⟨_, rfl, rfl, rfl, rfl, rfl, rfl⟩

/-- C3 at a concrete message: a submission for board 7, which `demoRelay` does not
master. -/
theorem C3_processSubmission_non_master_witness :
    demoRelay.compiler = some demoCompiler ∧
      demoForeignBoard.IsMaster = false ∧
      ∃ p, demoRelay.processSubmission demoCodec ⟨MsgType.SubmissionType, 9, [11, 7, 3]⟩
          = some p ∧ p.hash = 11 ∧
        p.goal = 0 ∧ p.e.isSome = true ∧ boo.typeOf p.e = Kind.NotAllowed ∧
        p.applied = [] :=
  ⟨rfl, rfl,
    C3_processSubmission_non_master demoCodec demoRelay demoCompiler
      ⟨MsgType.SubmissionType, 9, [11, 7, 3]⟩ ⟨11, 7, [3]⟩ ⟨11, 7, [3]⟩ demoForeignBoard
      rfl rfl rfl rfl rfl⟩

/-- C6, refuted as stated: for a submission for board 8, for which `GetBoard` fails with
a `NotFound` error, the error that `processSubmission` returns is of kind `InvalidRead`,
not `NotFound`. -/
theorem C6_unknown_board_not_NotFound :
    demoCompiler.GetBoard 8 = Except.error ⟨Kind.NotFound, ["board not found"]⟩ ∧
      (demoRelay.processSubmission demoCodec ⟨MsgType.SubmissionType, 9, [11, 8, 3]⟩).map
        (fun p => boo.typeOf p.e) = some Kind.InvalidRead ∧
      ¬ (demoRelay.processSubmission demoCodec ⟨MsgType.SubmissionType, 9, [11, 8, 3]⟩).map
        (fun p => boo.typeOf p.e) = some Kind.NotFound := by
  refine ⟨rfl, rfl, ?_⟩
  decide

/-- C6, amended: for an inbound Submission whose payload extracts and whose board id is
unknown to the state compiler (`GetBoard` fails with an error of kind `NotFound`), the
error that `processSubmission` returns, and that is wrapped into the
`SubmissionResponse`, is of kind `InvalidRead` and has the `GetBoard` error as its
cause; no sequence number is assigned (the board's `Submit` is not invoked, sequence
number 0). -/
theorem C6_unknown_board_InvalidRead (cdc : Codec) (r : Relay) (compiler : Compiler)
    (wrapper : Wrapper) (submission : Submission) (transport : Transport)
    (cause : GoError) (hc : r.compiler = some compiler)
    (hs : cdc.ToSubmission wrapper = Except.ok submission)
    (ht : cdc.ToTransport submission = Except.ok transport)
    (hb : compiler.GetBoard transport.ofBoard = Except.error cause)
    (_hk : cause.kind = Kind.NotFound) :
    ∃ p, r.processSubmission cdc wrapper = some p ∧ p.hash = transport.hash ∧
      p.goal = 0 ∧ p.applied = [] ∧
      p.e = some ⟨Kind.InvalidRead, "failed to obtain board instance" :: cause.stack⟩ ∧
      boo.typeOf (NewSubmissionResponse p.hash p.goal p.e).Error = Kind.InvalidRead ∧
      (NewSubmissionResponse p.hash p.goal p.e).seq = 0 := by
  unfold Relay.processSubmission
  simp only [hs, ht, hc, hb]
  exact ⟨_, rfl, rfl, rfl, rfl, rfl, rfl, rfl⟩

/-- C6, amended, at a concrete message: a submission for board 8, which `demoCompiler`
does not know. -/
theorem C6_unknown_board_InvalidRead_witness :
    demoRelay.compiler = some demoCompiler ∧
      demoCompiler.GetBoard 8 = Except.error ⟨Kind.NotFound, ["board not found"]⟩ ∧
      ∃ p, demoRelay.processSubmission demoCodec ⟨MsgType.SubmissionType, 9, [11, 8, 3]⟩
          = some p ∧ p.hash = 11 ∧ p.goal = 0 ∧ p.applied = [] ∧
        p.e = some ⟨Kind.InvalidRead,
          ["failed to obtain board instance", "board not found"]⟩ ∧
        boo.typeOf (NewSubmissionResponse p.hash p.goal p.e).Error = Kind.InvalidRead ∧
        (NewSubmissionResponse p.hash p.goal p.e).seq = 0 :=
  ⟨rfl, rfl,
    C6_unknown_board_InvalidRead demoCodec demoRelay demoCompiler
      ⟨MsgType.SubmissionType, 9, [11, 8, 3]⟩ ⟨11, 8, [3]⟩ ⟨11, 8, [3]⟩
      ⟨Kind.NotFound, ["board not found"]⟩ rfl rfl rfl rfl rfl⟩

/-- C7: for a well-formed inbound envelope of kind Submission, whatever triple
`processSubmission` returns, the dispatch loop hands exactly one message to the `Send` of
the connection it serves, addressed to the identity the envelope came from
(`GetFromPK`), whose bytes are the discriminant byte of `SubmissionResponseType` followed
by the serialized `SubmissionResponse` built from exactly that triple; the loop stays
running. -/
theorem C7_one_response_per_submission (cdc : Codec) (r : Relay) (conn : Connection)
    (data : Bytes) (wrapper : Wrapper) (p : Processed)
    (hw : cdc.NewWrapper data = Except.ok wrapper)
    (ht : wrapper.GetType = MsgType.SubmissionType)
    (hp : r.processSubmission cdc wrapper = some p) :
    ∃ st, r.connectionService cdc conn (Event.data data) = some st ∧
      st.state = LoopState.Running ∧
      sentOf st.effects = [(conn.addr, wrapper.GetFromPK,
        cdc.byte MsgType.SubmissionResponseType ::
          cdc.SerializeResponse (NewSubmissionResponse p.hash p.goal p.e))] := by
  unfold Relay.connectionService
  simp only [hw, ht, hp]
  refine ⟨_, rfl, rfl, ?_⟩
  simp only [sentOf_append, sentOf_applied]
  cases send cdc conn wrapper.GetFromPK MsgType.SubmissionResponseType
      (cdc.SerializeResponse (NewSubmissionResponse p.hash p.goal p.e)) <;>
    simp [sentOf]

/-- C7 at a concrete message: the submission for board 7 that `demoRelay` rejects is
answered by one message to identity 9. -/
theorem C7_one_response_per_submission_witness :
    demoCodec.NewWrapper demoForeignData = Except.ok ⟨MsgType.SubmissionType, 9, [11, 7, 3]⟩ ∧
      ∃ st, demoRelay.connectionService demoCodec demoConn (Event.data demoForeignData)
          = some st ∧ st.state = LoopState.Running ∧
        sentOf st.effects = [("10.0.0.2:8080", 9, [1, 11, 0, 1])] :=
  ⟨rfl,
    C7_one_response_per_submission demoCodec demoRelay demoConn demoForeignData
      ⟨MsgType.SubmissionType, 9, [11, 7, 3]⟩
      ⟨11, 0, boo.WrapType none Kind.NotAllowed "node does not own this board", []⟩
      rfl rfl rfl⟩

/-- On an open relay `processSubmission` returns. -/
theorem processSubmission_returns (cdc : Codec) (r : Relay) (compiler : Compiler)
    (wrapper : Wrapper) (hc : r.compiler = some compiler) :
    ∃ p, r.processSubmission cdc wrapper = some p := by
  unfold Relay.processSubmission
  cases hs : cdc.ToSubmission wrapper with
  | error e => exact ⟨_, rfl⟩
  | ok submission =>
    dsimp only
    cases ht : cdc.ToTransport submission with
    | error e => exact ⟨_, rfl⟩
    | ok transport =>
      simp only [hc]
      cases hb : compiler.GetBoard transport.ofBoard with
      | error e => exact ⟨_, rfl⟩
      | ok bi =>
        dsimp only
        by_cases hm : bi.IsMaster = false
        · simp only [hm, if_true]
          exact ⟨_, rfl⟩
        · simp only [hm, if_false]
          rcases hsub : bi.Submit transport with ⟨goal, e⟩
          cases e with
          | none => exact ⟨_, rfl⟩
          | some err => exact ⟨_, rfl⟩

/-- On an open relay an iteration on an inbound message ends in `Running`, with the
relay still open on the same compiler. -/
theorem connectionService_data_running (cdc : Codec) (r : Relay) (conn : Connection)
    (compiler : Compiler) (data : Bytes) (hc : r.compiler = some compiler) :
    ∃ st, r.connectionService cdc conn (Event.data data) = some st ∧
      st.state = LoopState.Running ∧ st.relay.compiler = some compiler := by
  unfold Relay.connectionService
  dsimp only
  cases hw : cdc.NewWrapper data with
  | error e => exact ⟨_, rfl, rfl, hc⟩
  | ok wrapper =>
    dsimp only
    cases ht : wrapper.GetType with
    | SubmissionType =>
      obtain ⟨p, hp⟩ := processSubmission_returns cdc r compiler wrapper hc
      simp only [hp]
      exact ⟨_, rfl, rfl, hc⟩
    | SubmissionResponseType =>
      cases hr : cdc.ToSubmissionResponse wrapper with
      | error e => exact ⟨_, rfl, rfl, hc⟩
      | ok res => exact ⟨_, rfl, rfl, hc⟩
    | other tag => exact ⟨_, rfl, rfl, hc⟩

/-- On an open relay the loop is still `Running` after any run of inbound messages. -/
theorem connectionServiceLoop_data_running (cdc : Codec) (conn : Connection)
    (compiler : Compiler) (msgs : List Bytes) (r : Relay)
    (hc : r.compiler = some compiler) :
    ∃ st, r.connectionServiceLoop cdc conn (msgs.map Event.data) = some st ∧
      st.state = LoopState.Running ∧ st.relay.compiler = some compiler := by
  induction msgs generalizing r with
  | nil => exact ⟨_, rfl, rfl, hc⟩
  | cons data rest ih =>
    obtain ⟨st, hst, hrun, hcomp⟩ := connectionService_data_running cdc r conn compiler data hc
    obtain ⟨st2, hst2, hrun2, hcomp2⟩ := ih st.relay hcomp
    refine ⟨⟨st2.state, st2.relay, st.effects ++ st2.effects⟩, ?_, hrun2, hcomp2⟩
    simp only [List.map_cons, Relay.connectionServiceLoop, hst, hrun, hst2]

/-- C8, refuted as stated: on a relay that dialled a connection and was never
opened, the well-formed Submission envelope `demoForeignData`, whose payload extracts,
reaches `r.compiler.GetBoard` with a nil compiler; the iteration yields no state, so
the loop does not stay `Running` on this inbound message. -/
theorem C8_unopened_relay_not_running :
    demoUnopenedRelay.compiler = none ∧
      demoCodec.NewWrapper demoForeignData
        = Except.ok ⟨MsgType.SubmissionType, 9, [11, 7, 3]⟩ ∧
      demoUnopenedRelay.connectionService demoCodec demoConn (Event.data demoForeignData)
        = none ∧
      ¬ ∃ st, demoUnopenedRelay.connectionService demoCodec demoConn
          (Event.data demoForeignData) = some st ∧ st.state = LoopState.Running := by
  refine ⟨rfl, rfl, rfl, ?_⟩
  rintro ⟨st, hst, _⟩
  have hnone : demoUnopenedRelay.connectionService demoCodec demoConn
      (Event.data demoForeignData) = none := rfl
  rw [hnone] at hst
  cases hst

/-- C8, amended: the dispatch loop of a relay whose compiler has been set by `Open`, as
a state machine over `Running` and `Terminated`. An iteration ends in `Terminated` only
on the shutdown signal or on closure of the inbound stream: the state it returns is
`Terminated` exactly when the event was the shutdown signal or a closure whose
disconnect notification was received, both of which do return `Terminated`, while a
closure whose notification is never received returns no state. For every inbound
message (malformed, a Submission whose handler or reply send fails, a
SubmissionResponse that fails to decode, or any other) the iteration returns and ends
in `Running`, so the loop is still `Running` after any run of inbound messages. For a
malformed envelope the iteration leaves the relay as it was, sends no reply and calls
no `Satisfy`. -/
theorem C8_dispatch_loop_state_machine (cdc : Codec) (r : Relay) (conn : Connection)
    (compiler : Compiler) (hc : r.compiler = some compiler) :
    (∀ ev st, r.connectionService cdc conn ev = some st →
        (st.state = LoopState.Terminated ↔
          (ev = Event.quit ∨ ev = Event.closed true))) ∧
      (∃ st, r.connectionService cdc conn Event.quit = some st ∧
        st.state = LoopState.Terminated) ∧
      (∃ st, r.connectionService cdc conn (Event.closed true) = some st ∧
        st.state = LoopState.Terminated) ∧
      r.connectionService cdc conn (Event.closed false) = none ∧
      (∀ data, ∃ st, r.connectionService cdc conn (Event.data data) = some st ∧
        st.state = LoopState.Running) ∧
      (∀ msgs : List Bytes, ∃ st,
        r.connectionServiceLoop cdc conn (msgs.map Event.data) = some st ∧
        st.state = LoopState.Running) ∧
      (∀ data e, cdc.NewWrapper data = Except.error e →
        ∃ st, r.connectionService cdc conn (Event.data data) = some st ∧
          st.state = LoopState.Running ∧ st.relay = r ∧
          sentOf st.effects = [] ∧ satisfiedOf st.effects = []) := by
  refine ⟨?_, ⟨_, rfl, rfl⟩, ⟨_, rfl, rfl⟩, rfl, ?_, ?_, ?_⟩
  · intro ev st hst
    cases ev with
    | quit =>
      have hq : r.connectionService cdc conn Event.quit
          = some ⟨LoopState.Terminated, r, []⟩ := rfl
      rw [hq] at hst
      cases hst
      simp
    | closed received =>
      cases received with
      | false =>
        have hb : r.connectionService cdc conn (Event.closed false) = none := rfl
        rw [hb] at hst
        cases hst
      | true =>
        have ht : r.connectionService cdc conn (Event.closed true)
            = some ⟨LoopState.Terminated, r,
              [Effect.disconnected conn.addr, Effect.logged "disconnected"]⟩ := rfl
        rw [ht] at hst
        cases hst
        simp
    | data data =>
      obtain ⟨st2, hst2, hrun, _⟩ :=
        connectionService_data_running cdc r conn compiler data hc
      rw [hst2] at hst
      cases hst
      simp [hrun]
  · intro data
    obtain ⟨st, hst, hrun, _⟩ := connectionService_data_running cdc r conn compiler data hc
    exact ⟨st, hst, hrun⟩
  · intro msgs
    obtain ⟨st, hst, hrun, _⟩ :=
      connectionServiceLoop_data_running cdc conn compiler msgs r hc
    exact ⟨st, hst, hrun⟩
  · intro data e hw
    unfold Relay.connectionService
    simp only [hw]
    exact ⟨_, rfl, rfl, rfl, rfl, rfl⟩

/-- C8, amended, at a concrete loop: `demoRelay`, opened on `demoCompiler`, serving
`demoConn`. -/
theorem C8_dispatch_loop_state_machine_witness :
    demoRelay.compiler = some demoCompiler ∧
      (∃ st, demoRelay.connectionService demoCodec demoConn (Event.data [9]) = some st ∧
        st.state = LoopState.Running ∧ st.relay = demoRelay ∧
        sentOf st.effects = [] ∧ satisfiedOf st.effects = []) ∧
      (∃ st, demoRelay.connectionServiceLoop demoCodec demoConn
          ([[9], demoForeignData, demoStrayData, [1, 9], [1, 9, 11, 4]].map Event.data)
          = some st ∧ st.state = LoopState.Running) ∧
      (∃ st, demoRelay.connectionService demoCodec demoConn Event.quit = some st ∧
        st.state = LoopState.Terminated) ∧
      (∃ st, demoRelay.connectionService demoCodec demoConn (Event.closed true) = some st ∧
        st.state = LoopState.Terminated) ∧
      demoRelay.connectionService demoCodec demoConn (Event.closed false) = none :=
  ⟨rfl,
    (C8_dispatch_loop_state_machine demoCodec demoRelay demoConn demoCompiler
      rfl).2.2.2.2.2.2 [9] ⟨Kind.MalformedMessage, ["malformed message"]⟩ rfl,
    (C8_dispatch_loop_state_machine demoCodec demoRelay demoConn demoCompiler
      rfl).2.2.2.2.2.1 [[9], demoForeignData, demoStrayData, [1, 9], [1, 9, 11, 4]],
    (C8_dispatch_loop_state_machine demoCodec demoRelay demoConn demoCompiler rfl).2.1,
    (C8_dispatch_loop_state_machine demoCodec demoRelay demoConn demoCompiler rfl).2.2.1,
    (C8_dispatch_loop_state_machine demoCodec demoRelay demoConn demoCompiler
      rfl).2.2.2.1⟩

end Accord

namespace Args

/-! ## `Config.PostProcess` -/

/-- In test mode, whatever `PostProcess` returns has the in-memory database off and the
saving of configuration files off. -/
theorem PostProcess_testMode (sys : Sys) (c0 c : Config) (ht : c0.testMode = true)
    (h : c0.PostProcess sys = Except.ok c) :
    c.CXOUseMemory = false ∧ c.SaveConfig = false := by
  unfold Config.PostProcess at h
  simp only [ht, if_true] at h
  split at h
  · exact absurd h (by simp)
  · rename_i c1 hc1
    have h1 : c1.cxoMemoryMode = false ∧ c1.saveConfig = false := by
      split_ifs at hc1
      cases hc1
      exact ⟨rfl, rfl⟩
    split_ifs at h with ha hb
    · cases h
      exact h1
    · cases h
      exact h1
    · split at h
      · exact absurd h (by simp)
      · cases h
        exact h1

/-- C9, evaluated on the code: for the default configuration with test mode and the
in-memory database switched on, whose test-mode settings pass validation, the
configuration that `PostProcess` returns has `CXOUseMemory() == false` (and
`SaveConfig() == false`). -/
theorem C9_PostProcess_test_mode_memory_off :
    demoTestConfig.testMode = true ∧ demoTestConfig.CXOUseMemory = true ∧
      (∃ c, demoTestConfig.PostProcess demoSys = Except.ok c ∧
        c.CXOUseMemory = false ∧ c.SaveConfig = false) := by
  refine ⟨rfl, rfl, ?_⟩
  have h : ∃ c, demoTestConfig.PostProcess demoSys = Except.ok c := by
    unfold Config.PostProcess demoTestConfig NewConfig demoSys
    simp
    split <;> simp
  obtain ⟨c, hc⟩ := h
  exact ⟨c, hc, PostProcess_testMode demoSys demoTestConfig c rfl hc⟩

end Args

namespace Rpc

open Accord

/-! ## `Send` -/

/-- C10: `Send` returns sequence number 0 on every return path, for every address list
and every outcome of the dial and of the call. The call is made on the first address
that dials and on no other; when that call completes without error after the remote
wrote a reply into `goal`, the result is still 0 with a nil error; when no address dials
the result is 0 with a `NotFound` error. -/
theorem C10_Send_returns_zero (net : Net) (addresses : List String) :
    (Send net addresses).goal = 0 ∧
      (Send net addresses).called = (addresses.find? net.dial).toList ∧
      (∀ address reply, addresses.find? net.dial = some address →
        net.select address = SelectEvent.callDone reply none →
        Send net addresses = ⟨0, none, [address]⟩) ∧
      (addresses.find? net.dial = none →
        Send net addresses = ⟨0, boo.New Kind.NotFound "not found bla bla bla", []⟩) := by
  induction addresses with
  | nil => simp [Send]
  | cons a rest ih =>
    unfold Send
    by_cases hd : net.dial a = true
    · simp only [hd, List.find?_cons_of_pos]
      cases hsel : net.select a with
      | callDone reply err =>
        refine ⟨rfl, rfl, ?_, ?_⟩
        · intro address reply2 haddr hsel2
          cases haddr
          rw [hsel] at hsel2
          cases hsel2
          rfl
        · intro h
          cases h
      | ctxDone err =>
        refine ⟨rfl, rfl, ?_, ?_⟩
        · intro address reply2 haddr hsel2
          cases haddr
          rw [hsel] at hsel2
          cases hsel2
        · intro h
          cases h
    · have hf : net.dial a = false := by simpa using hd
      simp only [hf, List.find?_cons_of_neg, Bool.false_eq_true, not_false_eq_true, if_true]
      exact ih

/-- C10 at a concrete call: the first address does not dial, the second does and its
call completes without error after the remote wrote 42 into `goal`, the third is never
used. -/
theorem C10_Send_returns_zero_witness :
    Send demoNet ["a:1", "b:2", "c:3"] = ⟨0, none, ["b:2"]⟩ :=
  (C10_Send_returns_zero demoNet ["a:1", "b:2", "c:3"]).2.2.1 "b:2" 42 (by decide) rfl

end Rpc
